import Mathlib

/-!
Verification of the bid-candidate monitor (`houxuan.py`, with the `main.py`
variant where a claim cites it).

The development is a shallow embedding of the Python sources:

* JSON dictionary fields are modelled by `JField` (absent key / JSON `null` /
  string value); `dict.get(k)` and `dict.get(k, default)` become `JField.get`
  and `JField.getD`.  A present-but-`null` field faithfully reproduces the
  `AttributeError` raised by `None.replace(...)` / `None.startswith(...)`.
* The markup text model (BeautifulSoup) is abstracted, per spec section 4.1, as
  the already-parsed tree: a `Doc` holds the list of `table` elements (each a
  list of `tr` rows, each row the list of `get_text(strip=True)` texts of its
  `td`/`th` cells) together with the flattened `get_text()` view.  Rows are
  modelled as containing exactly their cells, and `row.get_text(strip=True)`
  is the concatenation of the cell texts.
* Python string operations that the code uses (`in`, `strip`, `replace`,
  `startswith`, `re` patterns) are implemented over `List Char`, each
  implementation documented with the Python expression or regex it embeds.
  Python's `\d`/`\s` character classes are taken at their ASCII core, which is
  exact on all inputs considered here.
* Exceptions inside `_parse_html_content` are modelled with `Except`: the
  translation raises exactly where the Python can (the `None.replace` title
  fault, the `candidate_cells[0]` IndexError, the stale-local NameError, the
  `None.startswith` url fault) and `parseHtmlContent` wraps the body in the
  source's `try/except` handler.
* The publicity-period regex cascade (houxuan.py lines 157-173) only feeds the
  `publicity_period` output field, which no claim reads; it is abstracted as a
  function parameter `pubLoc : String → String`, and every theorem below is
  universally quantified over it.
* The JSON-file persistence pair (`hx.json` / `hx_parsed.json`) is a `Store`
  of two lists; `_load_json_file` / `_save_json_file` swallow their exceptions,
  which `processAndStoreFaulty` models with explicit fault flags: a failed
  load yields `[]`, a failed save leaves the file unchanged.
-/

/-! ## JSON field model -/

/-- A field of a JSON dictionary entry: the key may be absent, present with
value `null`, or present with a string value. -/
inductive JField where
  | absent : JField
  | null : JField
  | str : String → JField
deriving DecidableEq

/-- Models Python `item.get(key)` (no default): absent and `null` both give
`None`. -/
def JField.get : JField → Option String
  | .absent => none
  | .null => none
  | .str s => some s

/-- Models Python `item.get(key, default)`: absent gives the default, a
present `null` gives `None` (so a later method call on it raises). -/
def JField.getD (f : JField) (d : String) : Option String :=
  match f with
  | .absent => some d
  | .null => none
  | .str s => some s

/-! ## Markup text model (spec section 4.1) -/

/-- A table row: the `get_text(strip=True)` texts of its `td`/`th` cells. -/
structure Row where
  cells : List String
deriving DecidableEq

/-- A `table` element: its `tr` rows in document order. -/
structure Table where
  rows : List Row
deriving DecidableEq

/-- The parsed markup of one announcement: the `table` elements of the
document and the flattened `soup.get_text()` view. -/
structure Doc where
  tables : List Table
  fullText : String
deriving DecidableEq

/-- A fetched raw document (`RawDocument` of the spec): the JSON fields the
code reads, with the markup already parsed into a `Doc`. -/
structure RawDoc where
  infoid : JField
  infourl : JField
  title : JField
  infodate : JField
  customtitle : JField
  doc : Doc
deriving DecidableEq

/-! ## Extraction output model -/

/-- One `{"bidder": ..., "price": ...}` entry of `bidders_and_prices`. -/
structure Candidate where
  bidder : String
  price : String
deriving DecidableEq

/-- The dictionary returned by `_parse_html_content`. -/
structure ParsedData where
  project_name : String
  publicity_period : String
  bidders_and_prices : List Candidate
  full_url : String
deriving DecidableEq

/-! ## Python string primitives over `List Char` -/

/-- Substring test on char lists: `hasSub pat l` iff `pat` occurs inside `l`
(Python `pat in l`, which is true for the empty pattern). -/
def hasSub (pat : List Char) : List Char → Bool
  | [] => pat.isEmpty
  | l@(_ :: tl) => pat.isPrefixOf l || hasSub pat tl

/-- Python `pat in s` for strings. -/
def strContains (s pat : String) : Bool := hasSub pat.data s.data

/-- Python `s.startswith(pat)`. -/
def pyStartsWith (s pat : String) : Bool := pat.data.isPrefixOf s.data

/-- The ASCII whitespace characters of Python's `str.strip()` and `\s`. -/
def pyIsSpaceChar (c : Char) : Bool :=
  c == ' ' || c == '\t' || c == '\n' || c == '\r' || c == '\x0b' || c == '\x0c'

/-- Python `s.strip()`. -/
def pyStrip (s : String) : String :=
  String.mk (((s.data.dropWhile pyIsSpaceChar).reverse.dropWhile pyIsSpaceChar).reverse)

/-- Worker for `pyReplace`; the fuel is larger than the text length, and every
recursive call strictly shortens the text. -/
def pyReplaceGo (old new : List Char) : Nat → List Char → List Char
  | 0, l => l
  | _, [] => []
  | fuel + 1, l@(c :: tl) =>
    if old.isPrefixOf l then new ++ pyReplaceGo old new fuel (l.drop old.length)
    else c :: pyReplaceGo old new fuel tl

/-- Python `s.replace(old, new)` for a non-empty `old`: replaces every
non-overlapping occurrence, left to right. -/
def pyReplace (s old new : String) : String :=
  if old.data.isEmpty then s
  else String.mk (pyReplaceGo old.data new.data (s.data.length + 1) s.data)

/-- Python `len(s)` (number of code points). -/
def pyLen (s : String) : Nat := s.data.length

/-! ## Shared regex pieces -/

/-- The character class `[一二三四五六七八九十\d]` of the rank pattern. -/
def rankCore (c : Char) : Bool :=
  ['一', '二', '三', '四', '五', '六', '七', '八', '九', '十'].contains c || c.isDigit

/-- `re.match(r'^第[一二三四五六七八九十\d]+名?$', text)` viewed as a boolean:
the text is `第`, one or more rank characters, optionally `名`, and nothing
else (cell texts are stripped, so the `$`-before-trailing-newline case cannot
arise). -/
def matchesRank (s : String) : Bool :=
  match s.data with
  | [] => false
  | c :: rest =>
    c == '第' &&
      (let body := rest.takeWhile rankCore
       let tail := rest.drop body.length
       !body.isEmpty && (tail == [] || tail == ['名']))

/-- `row.get_text(strip=True)` under the row model: the concatenation of the
(stripped) cell texts. -/
def rowText (r : Row) : String := String.mk (r.cells.map String.data).flatten

/-! ## Method 1: the header-based bidder/price table locator
(houxuan.py lines 175-239). -/

/-- The exceptions the embedded extraction body can raise. -/
inductive PyErr where
  | attrError : PyErr
  | indexError : PyErr
  | nameError : PyErr
deriving DecidableEq

/-- The function-local state threaded through the table loop of method 1:
`bidders_and_prices` plus the locals `candidates` and `start_col`, which are
assigned only inside `if candidate_row:` and are otherwise stale (`none`
models "never assigned", so that using them raises `NameError`). -/
structure M1State where
  bp : List Candidate
  cands : Option (List String)
  startCol : Option Nat
deriving DecidableEq

/-- The header keyword list of line 183. -/
def candKeywords : List String := ["中标候选人名称", "候选人名称", "单位名称", "名次"]

/-- The price-row keyword list of lines 212-213. -/
def priceKeywords : List String := ["投标报价", "报价", "投标总价", "总报价", "投标金额", "金额"]

/-- The cell filter of lines 204-206: non-trivial length, not a rank label,
and containing a corporate marker. -/
def candCellOk (t : String) : Bool :=
  pyLen t > 1 && !matchesRank t &&
    (strContains t "公司" || strContains t "集团" || strContains t "有限" || strContains t "设计院")

/-- The price-cell filter of line 224. -/
def priceCellOk (t : String) : Bool :=
  t ≠ "" && t ≠ "/" && !matchesRank t

/-- The pairing loops of lines 228-233 and 332-337: bidders and prices are
zipped by position, missing prices become the `未提供` sentinel, excess prices
are dropped. -/
def pairBP : List String → List String → List Candidate
  | [], _ => []
  | c :: cs, [] => ⟨c, "未提供"⟩ :: pairBP cs []
  | c :: cs, p :: ps => ⟨c, p⟩ :: pairBP cs ps

/-- Lines 210-215: the first later sibling row whose `get_text()` contains a
price keyword. -/
def findPriceRow (rest : List Row) : Option Row :=
  rest.find? (fun nr => priceKeywords.any (fun kw => strContains (rowText nr) kw))

/-- Lines 184-233, the body run for one header row.  `rest` is the list of
later sibling rows of the header row in the same table. -/
def m1HeaderStep (rText : String) (cells : List String) (rest : List Row) (s : M1State) :
    Except PyErr M1State :=
  let candRow : Option Row := if cells.length < 3 then rest.head? else some ⟨cells⟩
  let afterCand : Except PyErr M1State :=
    match candRow with
    | some cr =>
      -- `if candidate_row:` — a bs4 `Tag` is unconditionally truthy ("a tag
      -- is non-None even if it has no contents"), so every row object enters
      -- the block, including an empty `<tr>`; only a missing next sibling
      -- (`None`) skips it.  With no cells and no `名次` in the header text,
      -- `candidate_cells[0]` raises IndexError.
      let scE : Except PyErr Nat :=
        if strContains rText "名次" then .ok 1
        else
          match cr.cells with
          | [] => .error .indexError
          | c0 :: _ => .ok (if strContains c0 "第一名" then 1 else 0)
      match scE with
      | .error e => .error e
      | .ok sc => .ok { s with cands := some ((cr.cells.drop sc).filter candCellOk), startCol := some sc }
    | none => .ok s
  match afterCand with
  | .error e => .error e
  | .ok s1 =>
    match findPriceRow rest with
    | some pr =>
      match s1.startCol with
      | none => .error .nameError
      | some sc =>
        let prices := (pr.cells.drop sc).filter priceCellOk
        match s1.cands with
        | none => .error .nameError
        | some cands => .ok { s1 with bp := s1.bp ++ pairBP cands prices }
    | none => .ok s1

/-- The row loop of lines 181-237 over one table; the returned flag is
`header_found`.  `if bidders_and_prices: break` exits the row loop. -/
def m1RowLoop : List Row → Bool → M1State → Except PyErr (M1State × Bool)
  | [], hf, s => .ok (s, hf)
  | r :: rest, hf, s =>
    if candKeywords.any (fun kw => strContains (rowText r) kw) then
      match m1HeaderStep (rowText r) r.cells rest s with
      | .error e => .error e
      | .ok s1 =>
        if s1.bp.isEmpty then m1RowLoop rest true s1
        else .ok (s1, true)
    else m1RowLoop rest hf s

/-- The table loop of lines 178-239; `if header_found: break` exits it. -/
def m1Tables : List Table → M1State → Except PyErr M1State
  | [], s => .ok s
  | t :: ts, s =>
    match m1RowLoop t.rows false s with
    | .error e => .error e
    | .ok (s1, hf) => if hf then .ok s1 else m1Tables ts s1

/-- The bidder/price table locator: method 1 run from the initial state
(`bidders_and_prices = []`, `candidates` and `start_col` unassigned). -/
def tableLocate (tables : List Table) : Except PyErr (List Candidate) :=
  match m1Tables tables ⟨[], none, none⟩ with
  | .error e => .error e
  | .ok s => .ok s.bp

/-- Fidelity check of the bs4 truthiness semantics: a `名次` header row
followed by an empty `<tr>` candidate row enters the candidate block
(assigning `candidates = []`, `start_col = 1`) and finishes method 1 with no
candidates and no fault, exactly as the program does. -/
theorem tableLocate_empty_sibling_no_fault :
    tableLocate [⟨[⟨["名次"]⟩, ⟨[]⟩, ⟨["投标报价", "100元"]⟩]⟩] = .ok [] := rfl

/-- Fidelity check of the live IndexError path: when a later header row
without `名次` selects an empty `<tr>` as candidate row,
`candidate_cells[0]` raises IndexError even though an earlier header row left
assigned locals behind — the locator faults instead of reusing the stale
state. -/
theorem tableLocate_empty_cells_index_fault :
    tableLocate [⟨[⟨["单位名称", "xx", "yy"]⟩, ⟨["候选人名称"]⟩, ⟨[]⟩,
      ⟨["投标报价", "100元"]⟩, ⟨["候选人名称", "某某集团有限公司", "x"]⟩,
      ⟨["报价", "1元"]⟩]⟩] = .error .indexError := rfl

/-! ## Method 2: the prose-pattern locator (houxuan.py lines 241-337).
Each scanner below implements one `re` pattern of the source, with Python's
leftmost / greedy / lazy semantics worked out for that concrete pattern. -/

/-- Index of the first occurrence of `pat` in a char list. -/
def findIdxOfPat (pat : List Char) : List Char → Option Nat
  | [] => if pat.isEmpty then some 0 else none
  | l@(_ :: tl) =>
    if pat.isPrefixOf l then some 0
    else (findIdxOfPat pat tl).map (· + 1)

/-- `re.search(A + '(.+?)' + B, text, re.DOTALL)`: the group of the leftmost
match — the text between the first viable occurrence of `A` and the first
occurrence of `B` starting at least one character later. -/
def searchBetween (a b : List Char) : List Char → Option (List Char)
  | [] => none
  | l@(_ :: tl) =>
    if a.isPrefixOf l then
      match l.drop a.length with
      | [] => searchBetween a b tl
      | d :: ds =>
        match findIdxOfPat b ds with
        | some k => some (d :: ds.take k)
        | none => searchBetween a b tl
    else searchBetween a b tl

/-- The character class `[：:\s]`. -/
def isColonSpace (c : Char) : Bool := c == '：' || c == ':' || pyIsSpaceChar c

/-- Index of the last character that is not `'\n'`. -/
def lastNonNl : List Char → Option Nat
  | [] => none
  | c :: rest =>
    match lastNonNl rest with
    | some j => some (j + 1)
    | none => if c == '\n' then none else some 0

/-- `[：:\s]*([^\n]+)` applied at a position: greedy class skip with
backtracking, then the group runs to the end of the line.  Since `'\n'` is in
the skip class, after a maximal skip the next character (if any) starts the
group; when the skip swallows the whole remainder, the engine backtracks to
the last non-newline class character.  Returns the group and the text after
it. -/
def skipThenLine (l : List Char) : Option (List Char × List Char) :=
  let k := (l.takeWhile isColonSpace).length
  match l.drop k with
  | c :: cs =>
    let grp := (c :: cs).takeWhile (fun d => d ≠ '\n')
    some (grp, (c :: cs).drop grp.length)
  | [] =>
    match lastNonNl (l.take k) with
    | none => none
    | some j =>
      let rest := l.drop j
      let grp := rest.takeWhile (fun d => d ≠ '\n')
      some (grp, rest.drop grp.length)

/-- `[：:\s]*([^\n]+?)(?:\n|$)`: same group as `skipThenLine` (the lazy group
also stops at the newline or the end), but the match additionally consumes
the newline, so scanning resumes after it. -/
def skipThenLineNl (l : List Char) : Option (List Char × List Char) :=
  match skipThenLine l with
  | none => none
  | some (grp, rest) =>
    match rest with
    | '\n' :: r => some (grp, r)
    | r => some (grp, r)

/-- Literal-prefix matcher: the remainder after `pat`, if `pat` starts `l`. -/
def litP (pat : String) (l : List Char) : Option (List Char) :=
  if pat.data.isPrefixOf l then some (l.drop pat.data.length) else none

/-- First `some` produced by `f` along a list. -/
def firstSomeP (f : α → Option β) : List α → Option β
  | [] => none
  | a :: rest =>
    match f a with
    | some b => some b
    | none => firstSomeP f rest

/-- Generic `re.findall` driver: at each position try the single-match
function; on a match emit its group and resume after the match, else advance
one character.  Every matcher consumes at least one character, so a fuel of
`length + 1` never runs out. -/
def findallGo (step : List Char → Option (List Char × List Char)) :
    Nat → List Char → List String
  | 0, _ => []
  | _, [] => []
  | fuel + 1, l@(_ :: tl) =>
    match step l with
    | some (m, rest) => String.mk m :: findallGo step fuel rest
    | none => findallGo step fuel tl

/-- One match of `第[一二三四五六七八九十\d]+中标候选人[：:\s]*([^\n]+)` at the
current position. -/
def cand1At (l : List Char) : Option (List Char × List Char) :=
  match l with
  | '第' :: rest =>
    let run := rest.takeWhile rankCore
    if run.isEmpty then none
    else
      match litP "中标候选人" (rest.drop run.length) with
      | some after => skipThenLine after
      | none => none
  | _ => none

/-- `re.findall` for candidate pattern 1 (line 263). -/
def findallCand1 (s : String) : List String :=
  findallGo cand1At (s.data.length + 1) s.data

/-- One match of `中标候选人名称[：:\s]*([^\n]+)` (pattern 2, line 269). -/
def cand2At (l : List Char) : Option (List Char × List Char) :=
  match litP "中标候选人名称" l with
  | some after => skipThenLine after
  | none => none

/-- One match of `中标候选人为[（(]排名不分先后[）)]?[：:\s]*([^\n]+)`
(line 279); the optional close paren is greedy with backtracking. -/
def unorderedAt (l : List Char) : Option (List Char × List Char) :=
  match litP "中标候选人为" l with
  | none => none
  | some l1 =>
    match l1 with
    | [] => none
    | c :: l2 =>
      if c == '（' || c == '(' then
        match litP "排名不分先后" l2 with
        | none => none
        | some l3 =>
          match l3 with
          | d :: l4 =>
            if d == '）' || d == ')' then
              match skipThenLine l4 with
              | some r => some r
              | none => skipThenLine l3
            else skipThenLine l3
          | [] => skipThenLine l3
      else none

/-- `re.search`: the group of the first match of `at1` anywhere in `l`. -/
def searchFirst (at1 : List Char → Option (List Char × List Char)) :
    List Char → Option (List Char)
  | [] => (at1 []).map (·.1)
  | l@(_ :: tl) =>
    match at1 l with
    | some r => some r.1
    | none => searchFirst at1 tl

/-- The delimiter class `[、，,;；]` of the candidate-list split (line 274). -/
def isDelimChar (c : Char) : Bool :=
  c == '、' || c == '，' || c == ',' || c == ';' || c == '；'

/-- Splitting a char list on single delimiter characters (`re.split` with a
one-character class: empty pieces are produced and later filtered). -/
def splitOnDelims : List Char → List (List Char)
  | [] => [[]]
  | c :: rest =>
    let r := splitOnDelims rest
    if isDelimChar c then [] :: r
    else
      match r with
      | [] => [[c]]
      | piece :: more => (c :: piece) :: more

/-- Lines 274-276 / 284-286: split on delimiters, strip, drop empties. -/
def splitClean (s : String) : List String :=
  (((splitOnDelims s.data).map (fun p => pyStrip (String.mk p))).filter (fun c => c ≠ ""))

/-- The CJK range `[一-龥]`. -/
def isCJK (c : Char) : Bool := 0x4e00 ≤ c.toNat && c.toNat ≤ 0x9fa5

/-- The corporate-suffix alternation of the company pattern (line 301), in
alternation order. -/
def corpSuffixes : List String :=
  ["公司", "集团", "设计院", "研究院", "工程局", "有限公司", "股份公司"]

/-- Backtracking of the greedy `[一-龥]{2,}` part: try the split
point `k` (characters kept in the run), largest first, stopping at 2; at each
split try the suffixes in alternation order. -/
def companyTryK (l : List Char) : Nat → Option (List Char × List Char)
  | 0 => none
  | 1 => none
  | k + 2 =>
    match firstSomeP
        (fun suf => (litP suf (l.drop (k + 2))).map (fun rest => (l.take (k + 2) ++ suf.data, rest)))
        corpSuffixes with
    | some r => some r
    | none => companyTryK l (k + 1)

/-- One match of `([一-龥]{2,}(?:公司|集团|设计院|研究院|工程局|有限公司|股份公司))`
at the current position. -/
def companyAt (l : List Char) : Option (List Char × List Char) :=
  let run := l.takeWhile isCJK
  if run.length < 2 then none else companyTryK l run.length

/-- `re.findall` for the generic company pattern (line 302). -/
def companyFindall (s : String) : List String :=
  findallGo companyAt (s.data.length + 1) s.data

/-- The seen-set deduplication worker of lines 304-305. -/
def dedupGo (seen : List String) : List String → List String
  | [] => []
  | c :: rest =>
    if seen.contains c then dedupGo seen rest
    else c :: dedupGo (c :: seen) rest

/-- Lines 304-306: keep the first occurrence of each name, in order. -/
def dedupKeepFirst (l : List String) : List String := dedupGo [] l

/-- The price labels of the labeled price pattern (line 311), in alternation
order.  No label is a prefix of another, so at most one matches at a
position. -/
def priceLabels : List String := ["投标报价", "报价", "投标总价", "总报价"]

/-- One match of `(?:投标报价|报价|投标总价|总报价)[：:\s]*([^\n]+?)(?:\n|$)`
at the current position. -/
def labeledPriceAt (l : List Char) : Option (List Char × List Char) :=
  match firstSomeP (fun lab => litP lab l) priceLabels with
  | some after => skipThenLineNl after
  | none => none

/-- `re.findall` for the labeled price pattern (line 312). -/
def labeledPriceFindall (s : String) : List String :=
  findallGo labeledPriceAt (s.data.length + 1) s.data

/-- The class `[\d,.]`. -/
def isNumChar (c : Char) : Bool := c.isDigit || c == ',' || c == '.'

/-- The class `[万元%]`. -/
def isUnitChar (c : Char) : Bool := c == '万' || c == '元' || c == '%'

/-- One match of `([\d,.]+[万元%]?|[\d,.]+元|[\d.]+%)` (line 317): the first
alternative matches whenever any does (greedy run of `[\d,.]`, then one
optional unit character). -/
def numUnitAt (l : List Char) : Option (List Char × List Char) :=
  let run := l.takeWhile isNumChar
  if run.isEmpty then none
  else
    match l.drop run.length with
    | u :: rest => if isUnitChar u then some (run ++ [u], rest) else some (run, u :: rest)
    | [] => some (run, [])

/-- `re.findall` of the number-unit pattern inside one labeled-price group. -/
def numUnitFindall (s : String) : List String :=
  findallGo numUnitAt (s.data.length + 1) s.data

/-- Lazy expansion of `.+?` in `按.+?收费标准的(\d+)%` (line 322): try the
occurrences of `收费标准的` left to right while the gap stays free of
newlines; at each, require `(\d+)%`. -/
def rateTryGo : Nat → List Char → Option (List Char × List Char)
  | 0, _ => none
  | _, [] => none
  | fuel + 1, l@(c :: tl) =>
    match litP "收费标准的" l with
    | some after =>
      let ds := after.takeWhile Char.isDigit
      if !ds.isEmpty then
        match after.drop ds.length with
        | '%' :: r => some (ds, r)
        | _ => if c ≠ '\n' then rateTryGo fuel tl else none
      else if c ≠ '\n' then rateTryGo fuel tl else none
    | none => if c ≠ '\n' then rateTryGo fuel tl else none

/-- One match of `按.+?收费标准的(\d+)%` at the current position: the gap after
`按` must be at least one non-newline character. -/
def rateAt (l : List Char) : Option (List Char × List Char) :=
  match l with
  | '按' :: b0 :: brest =>
    if b0 ≠ '\n' then rateTryGo (brest.length + 1) brest else none
  | _ => none

/-- `re.findall` for the rate pattern (line 323); the groups are the captured
digit runs. -/
def rateFindall (s : String) : List String :=
  findallGo rateAt (s.data.length + 1) s.data

/-- The class `[\d.]` (no comma) of the third branch of line 328. -/
def isNumDotChar (c : Char) : Bool := c.isDigit || c == '.'

/-- One match of `([\d,.]+万元?|[\d,.]+元|[\d.]+%)` (line 328).  The runs are
maximal: shrinking never helps because the required unit characters are not
in the run classes. -/
def priceToken2At (l : List Char) : Option (List Char × List Char) :=
  let run := l.takeWhile isNumChar
  if run.isEmpty then none
  else
    match l.drop run.length with
    | '万' :: rest =>
      match rest with
      | '元' :: r2 => some (run ++ ['万', '元'], r2)
      | _ => some (run ++ ['万'], rest)
    | '元' :: r2 => some (run ++ ['元'], r2)
    | _ =>
      let run3 := l.takeWhile isNumDotChar
      if run3.isEmpty then none
      else
        match l.drop run3.length with
        | '%' :: r3 => some (run3 ++ ['%'], r3)
        | _ => none

/-- `re.findall` for the fallback price pattern (line 329). -/
def priceToken2Findall (s : String) : List String :=
  findallGo priceToken2At (s.data.length + 1) s.data

/-- The section patterns of lines 246-251 (all share the same end marker). -/
def sectionPats : List String := ["二、评标结果", "二、评标情况", "二、评审结果", "二、中标候选人"]

/-- Lines 243-258: the review section — the group of the first matching
section pattern, falling back to the whole text when no pattern matches (or
the matched group is empty, which the `+?` makes impossible anyway). -/
def reviewSectionOf (ft : String) : String :=
  let rs :=
    match firstSomeP (fun a => searchBetween a.data "三、公示时间".data ft.data) sectionPats with
    | some g => String.mk g
    | none => ""
  if rs = "" then ft else rs

/-- All `tr` rows of the document, as `soup.find_all('tr')` returns them
under the row model (every row belongs to some table). -/
def allRowsOf (tables : List Table) : List Row := (tables.map Table.rows).flatten

/-- All cell texts of the document in scan order. -/
def allCellsOf (tables : List Table) : List String :=
  ((allRowsOf tables).map Row.cells).flatten

/-- The shared accumulate-if-new loop shape of lines 290-296 and 343-349:
append a cell text when the predicate holds and it is not yet collected. -/
def collectCompanies (ok : String → Bool) (cells : List String) : List String :=
  cells.foldl (fun acc c => if ok c && !acc.contains c then acc ++ [c] else acc) []

/-- The cell predicate of lines 294 (mode 4): a corporate marker including
`有限`, length over 5. -/
def mode4CellOk (t : String) : Bool :=
  (strContains t "公司" || strContains t "集团" || strContains t "有限") && pyLen t > 5

/-- Lines 288-296: candidates collected from all table rows (mode 4). -/
def tableCandidates (tables : List Table) : List String :=
  collectCompanies mode4CellOk (allCellsOf tables)

/-- Lines 260-306: the candidate cascade of method 2. -/
def proseCandidates (rs : String) (tables : List Table) : List String :=
  let m1 := findallCand1 rs
  if !m1.isEmpty then m1.map pyStrip
  else
    match searchFirst cand2At rs.data with
    | some grp => splitClean (String.mk grp)
    | none =>
      match searchFirst unorderedAt rs.data with
      | some grp => splitClean (String.mk grp)
      | none =>
        let tc := tableCandidates tables
        if !tc.isEmpty then tc
        else dedupKeepFirst (companyFindall rs)

/-- Lines 308-329: the price cascade of method 2. -/
def prosePrices (rs : String) : List String :=
  let lm := labeledPriceFindall rs
  if !lm.isEmpty then (lm.map numUnitFindall).flatten
  else
    let rm := rateFindall rs
    if !rm.isEmpty then rm.map (fun r => r ++ "%")
    else priceToken2Findall rs

/-- The prose-pattern locator: method 2 in full (lines 241-337). -/
def proseLocate (ft : String) (tables : List Table) : List Candidate :=
  let rs := reviewSectionOf ft
  pairBP (proseCandidates rs tables) (prosePrices rs)

/-! ## The fewer-than-3 top-up sweep (houxuan.py lines 339-359). -/

/-- The cell predicate of line 347: `公司` or `集团`, length over 5. -/
def companyCellOk (t : String) : Bool :=
  (strContains t "公司" || strContains t "集团") && pyLen t > 5

/-- Lines 341-349: company names collected from every table cell. -/
def sweepCompanies (tables : List Table) : List String :=
  collectCompanies companyCellOk (allCellsOf tables)

/-- The append loop of lines 353-359: `enumerate(all_companies)` appends the
company at index `i` whenever `i` is at least the current (growing) length of
`bidders_and_prices`. -/
def topUpGo (acc : List Candidate) (i : Nat) : List String → List Candidate
  | [] => acc
  | c :: rest =>
    topUpGo (if acc.length ≤ i then acc ++ [⟨c, "未提供"⟩] else acc) (i + 1) rest

/-- Lines 339-359: when fewer than 3 candidates were extracted, sweep the
tables for company names and append the surplus with sentinel prices. -/
def topUp (tables : List Table) (bp : List Candidate) : List Candidate :=
  if bp.length < 3 then
    let ac := sweepCompanies tables
    if ac.length > bp.length then topUpGo bp 0 ac else bp
  else bp

/-- The extra entries `topUp` appends after the incoming list (proved equal
to the loop in `topUp_eq_append`). -/
def topUpExtra (tables : List Table) (bp : List Candidate) : List Candidate :=
  if bp.length < 3 then
    let ac := sweepCompanies tables
    if ac.length > bp.length then (ac.drop bp.length).map (fun c => ⟨c, "未提供"⟩) else []
  else []

/-! ## The extraction engine `_parse_html_content` (houxuan.py lines 148-380). -/

/-- The site origin `self.base_url`. -/
def baseUrl : String := "https://ggzy.sc.yichang.gov.cn"

/-- The `try`-body of `_parse_html_content` (lines 151-370).  An error carries
the value bound to `project_name` when the exception was raised, which is all
the `except` handler consumes.  `pubLoc` abstracts the publicity-period
regex cascade of lines 157-173 (its output is only stored, never branched
on). -/
def parseBody (pubLoc : String → String) (data : RawDoc) : Except (PyErr × String) ParsedData :=
  match data.customtitle.getD "" with
  | none => .error (.attrError, "")
  | some t =>
    let pn := pyStrip (pyReplace t "中标候选人公示" "")
    let publicity := pubLoc data.doc.fullText
    match tableLocate data.doc.tables with
    | .error e => .error (e, pn)
    | .ok bp0 =>
      let bp1 := if bp0.isEmpty then proseLocate data.doc.fullText data.doc.tables else bp0
      let bp := topUp data.doc.tables bp1
      match data.infourl.getD "" with
      | none => .error (.attrError, pn)
      | some u =>
        .ok { project_name := if pn = "" then "未知项目" else pn
              publicity_period := publicity
              bidders_and_prices := bp
              full_url := if pyStartsWith u "/" then baseUrl ++ u else u }

/-- The record built by the `except` branch (lines 375-380), parameterized by
the `project_name` value at the time of the fault. -/
def fallbackRecord (pn : String) : ParsedData :=
  { project_name := if pn = "" then "解析失败" else pn
    publicity_period := ""
    bidders_and_prices := [⟨"解析失败", "请查看详情"⟩]
    full_url := "" }

/-- `_parse_html_content`: the body wrapped in the `try/except` of the
source. -/
def parseHtmlContent (pubLoc : String → String) (data : RawDoc) : ParsedData :=
  match parseBody pubLoc data with
  | .ok r => r
  | .error (_, pn) => fallbackRecord pn

/-! ## Ingestion state machine (houxuan.py lines 35-146, 479-486; the
`main.py` variant of `send_notifications` at main.py lines 113-122). -/

/-- A persisted parsed record (lines 133-141): identity fields, the parsed
payload, and the retained raw metadata. -/
structure ParsedRec where
  infoid : Option String
  infourl : Option String
  parsed : ParsedData
  title : Option String
  infodate : Option String
deriving DecidableEq

/-- The two JSON files as loaded lists: `hx.json` and `hx_parsed.json`. -/
structure Store where
  raw : List RawDoc
  parsed : List ParsedRec
deriving DecidableEq

/-- `_is_existing_record` (lines 54-62): a disjunctive identity test — any
stored item matching on `infoid` or on `infourl` makes the new item a
duplicate.  `dict.get` equality is `Option` equality (two missing ids are
equal, as in Python `None == None`). -/
def isExistingRecord (newItem : RawDoc) (existing : List RawDoc) : Bool :=
  existing.any (fun item =>
    item.infoid.get == newItem.infoid.get || item.infourl.get == newItem.infourl.get)

/-- The new-item filter of lines 118-121. -/
def newItems (batch : List RawDoc) (existingRaw : List RawDoc) : List RawDoc :=
  batch.filter (fun item => !isExistingRecord item existingRaw)

/-- One parsed record as built at lines 133-141 (and identically at lines
70-78 of `reparse_all_data`). -/
def parsedRecordOf (pubLoc : String → String) (item : RawDoc) : ParsedRec :=
  { infoid := item.infoid.get
    infourl := item.infourl.get
    parsed := parseHtmlContent pubLoc item
    title := item.title.get
    infodate := item.infodate.get }

/-- The append loop of lines 132-142: `parsed_data.append(...)` per item. -/
def appendParsed (pubLoc : String → String) (init : List ParsedRec) (items : List RawDoc) :
    List ParsedRec :=
  items.foldl (fun acc item => acc ++ [parsedRecordOf pubLoc item]) init

/-- `process_and_store_data` (lines 111-146) for a fetched batch, under
fault-free persistence.  The returned number is both the return value and the
value of `self.latest_new_count` after the call on a fresh monitor (the
attribute starts at 0 and the early returns leave it untouched). -/
def processAndStoreData (pubLoc : String → String) (batch : List RawDoc) (s : Store) :
    Store × Nat :=
  if batch.isEmpty then (s, 0)
  else
    let ni := newItems batch s.raw
    if ni.isEmpty then (s, 0)
    else ({ raw := s.raw ++ ni, parsed := appendParsed pubLoc s.parsed ni }, ni.length)

/-- `reparse_all_data` (lines 64-82): recompute every parsed record from the
raw store and replace the parsed file wholesale. -/
def reparseAllData (pubLoc : String → String) (s : Store) : Store :=
  { s with parsed := appendParsed pubLoc [] s.raw }

/-- The records `send_notifications` (houxuan.py lines 479-486) iterates over:
nothing when `latest_new_count <= 0`, otherwise the slice
`parsed_data[-latest_new_count:]`, i.e. the last `min(count, len)` entries. -/
def sendNotificationsTargets (latestNewCount : Nat) (parsedFile : List ParsedRec) :
    List ParsedRec :=
  if latestNewCount = 0 then []
  else parsedFile.drop (parsedFile.length - latestNewCount)

/-- `self.page_size` of `main.py`. -/
def mainPageSize : Nat := 6

/-- The records the `main.py` variant of `send_notifications` (lines 113-122)
iterates over: nothing when the parsed file is empty, otherwise the last
`min(len(parsed_data), page_size)` entries — the variant keeps no new-count
and approximates it with the page size. -/
def sendNotificationsTargetsMain (parsedFile : List ParsedRec) : List ParsedRec :=
  if parsedFile.isEmpty then []
  else parsedFile.drop (parsedFile.length - min parsedFile.length mainPageSize)

/-! ## Persistence-fault model.  `_load_json_file` (lines 35-44) returns `[]`
when reading raises; `_save_json_file` (lines 46-52) leaves the file as it
was when writing raises; neither propagates the exception. -/

/-- Fault injection for one ingestion cycle: whether each of the four
persistence operations of `process_and_store_data` raises. -/
structure Faults where
  rawLoadFails : Bool
  parsedLoadFails : Bool
  rawSaveFails : Bool
  parsedSaveFails : Bool
deriving DecidableEq

/-- Whether any persistence fault occurs in the cycle. -/
def faultOccurs (fl : Faults) : Bool :=
  fl.rawLoadFails || fl.parsedLoadFails || fl.rawSaveFails || fl.parsedSaveFails

/-- `process_and_store_data` with the persistence faults made explicit: a
failing load is swallowed into `[]`, a failing save is swallowed leaving the
old file contents. -/
def processAndStoreFaulty (pubLoc : String → String) (batch : List RawDoc) (s : Store)
    (fl : Faults) : Store × Nat :=
  if batch.isEmpty then (s, 0)
  else
    let existingRaw := if fl.rawLoadFails then [] else s.raw
    let ni := newItems batch existingRaw
    if ni.isEmpty then (s, 0)
    else
      let s1 := if fl.rawSaveFails then s else { s with raw := existingRaw ++ ni }
      let parsedData := if fl.parsedLoadFails then [] else s1.parsed
      let s2 := if fl.parsedSaveFails then s1 else { s1 with parsed := appendParsed pubLoc parsedData ni }
      (s2, ni.length)

/-! ## Helper lemmas -/

/-- The append loop equals an append of the mapped items. -/
theorem appendParsed_eq (pubLoc : String → String) (init : List ParsedRec)
    (items : List RawDoc) :
    appendParsed pubLoc init items = init ++ items.map (parsedRecordOf pubLoc) := by
  induction items generalizing init with
  | nil => simp [appendParsed]
  | cons it rest ih =>
    simp only [appendParsed, List.foldl_cons, List.map_cons] at *
    rw [ih]
    simp

/-- Membership in the raw store makes the disjunctive identity test fire. -/
theorem isExisting_of_mem (d : RawDoc) (l : List RawDoc) (h : d ∈ l) :
    isExistingRecord d l = true := by
  simp only [isExistingRecord, List.any_eq_true]
  exact ⟨d, h, by simp⟩

/-- The identity test distributes over an appended store. -/
theorem isExisting_append (d : RawDoc) (l1 l2 : List RawDoc) :
    isExistingRecord d (l1 ++ l2) = (isExistingRecord d l1 || isExistingRecord d l2) := by
  simp [isExistingRecord, List.any_append]

/-- After committing a cycle, every batch item is a duplicate. -/
theorem newItems_after_commit (batch raw : List RawDoc) :
    newItems batch (raw ++ newItems batch raw) = [] := by
  rw [newItems, List.filter_eq_nil_iff]
  intro d hd
  simp only [Bool.not_eq_true', Bool.not_eq_false]
  rw [isExisting_append]
  by_cases h : isExistingRecord d raw
  · simp [h]
  · have hmem : d ∈ newItems batch raw := by
      rw [newItems, List.mem_filter]
      exact ⟨hd, by simp [h]⟩
    simp [isExisting_of_mem d _ hmem]

/-- The enumerate-append loop of the top-up sweep, once the index has caught
up with the length, appends the remaining companies. -/
theorem topUpGo_eq (ac : List String) (acc : List Candidate) (i : Nat)
    (h : i ≤ acc.length) :
    topUpGo acc i ac = acc ++ (ac.drop (acc.length - i)).map (fun c => ⟨c, "未提供"⟩) := by
  induction ac generalizing acc i with
  | nil => simp [topUpGo]
  | cons c rest ih =>
    by_cases hc : acc.length ≤ i
    · have hi : i = acc.length := Nat.le_antisymm h hc
      subst hi
      simp only [topUpGo, le_refl, if_true]
      have h' := ih (acc ++ [Candidate.mk c "未提供"]) (acc.length + 1) (by simp)
      rw [h']
      simp
    · have hlt : i < acc.length := Nat.lt_of_not_le hc
      simp only [topUpGo, if_neg hc]
      have h' := ih acc (i + 1) hlt
      rw [h']
      have h1 : acc.length - i = (acc.length - (i + 1)) + 1 := by omega
      simp [h1]

/-- The top-up step only ever appends after the incoming candidate list. -/
theorem topUp_eq_append (tables : List Table) (bp : List Candidate) :
    topUp tables bp = bp ++ topUpExtra tables bp := by
  unfold topUp topUpExtra
  by_cases h3 : bp.length < 3
  · simp only [if_pos h3]
    by_cases hgt : (sweepCompanies tables).length > bp.length
    · simp only [if_pos hgt]
      rw [topUpGo_eq _ _ 0 (Nat.zero_le _)]
      simp
    · simp [if_neg hgt]
  · simp [if_neg h3]

/-- The accumulate-if-new loop preserves freedom from duplicates. -/
theorem collectFold_nodup (ok : String → Bool) (cells : List String)
    (acc : List String) (h : acc.Nodup) :
    (cells.foldl (fun acc c => if ok c && !acc.contains c then acc ++ [c] else acc) acc).Nodup := by
  induction cells generalizing acc with
  | nil => exact h
  | cons c rest ih =>
    simp only [List.foldl_cons]
    by_cases hc : (ok c && !acc.contains c) = true
    · rw [if_pos hc]
      apply ih
      have hnm : c ∉ acc := by
        intro hmem
        have hcon : acc.contains c = true := List.elem_iff.mpr hmem
        simp [hcon] at hc
        exact hc.2 hmem
      simp [List.nodup_append, h, hnm]
    · rw [if_neg hc]; exact ih acc h

/-- Membership after the seen-set dedup loop. -/
theorem dedupGo_mem (l : List String) (seen : List String) (a : String) :
    a ∈ dedupGo seen l ↔ a ∈ l ∧ a ∉ seen := by
  induction l generalizing seen with
  | nil => simp [dedupGo]
  | cons c rest ih =>
    simp only [dedupGo]
    by_cases hc : seen.contains c = true
    · have hcm : c ∈ seen := List.elem_iff.mp hc
      rw [if_pos hc, ih]
      simp only [List.mem_cons]
      constructor
      · rintro ⟨h1, h2⟩
        exact ⟨Or.inr h1, h2⟩
      · rintro ⟨rfl | h1, h2⟩
        · exact absurd hcm h2
        · exact ⟨h1, h2⟩
    · have hcm : c ∉ seen := fun hm => hc (List.elem_iff.mpr hm)
      rw [if_neg hc]
      by_cases hac : a = c
      · subst hac
        simp [ih, hcm]
      · simp [ih, hac]

/-- The seen-set dedup loop produces no duplicates. -/
theorem dedupGo_nodup (l : List String) (seen : List String) :
    (dedupGo seen l).Nodup := by
  induction l generalizing seen with
  | nil => simp [dedupGo]
  | cons c rest ih =>
    simp only [dedupGo]
    by_cases hc : seen.contains c = true
    · rw [if_pos hc]; exact ih seen
    · rw [if_neg hc]
      refine List.nodup_cons.mpr ⟨?_, ih (c :: seen)⟩
      intro hmem
      exact ((dedupGo_mem rest (c :: seen) c).mp hmem).2 (List.mem_cons_self c seen)

/-- The seen-set dedup loop yields a sublist (order is preserved). -/
theorem dedupGo_sublist (l : List String) (seen : List String) :
    List.Sublist (dedupGo seen l) l := by
  induction l generalizing seen with
  | nil => simp [dedupGo]
  | cons c rest ih =>
    simp only [dedupGo]
    by_cases hc : seen.contains c = true
    · rw [if_pos hc]; exact List.Sublist.cons c (ih seen)
    · rw [if_neg hc]; exact List.Sublist.cons₂ c (ih (c :: seen))

/-- The dedup loop only consults the seen set through membership. -/
theorem dedupGo_congr (l : List String) (seen1 seen2 : List String)
    (h : ∀ x, seen1.contains x = seen2.contains x) :
    dedupGo seen1 l = dedupGo seen2 l := by
  induction l generalizing seen1 seen2 with
  | nil => rfl
  | cons c rest ih =>
    simp only [dedupGo, h c]
    by_cases hc : seen2.contains c = true
    · rw [if_pos hc, if_pos hc]; exact ih seen1 seen2 h
    · rw [if_neg hc, if_neg hc]
      rw [ih (c :: seen1) (c :: seen2) (fun x =>
        show (x == c || seen1.contains x) = (x == c || seen2.contains x) by rw [h x])]

/-- Growing the seen set by one name is filtering that name out of the
input. -/
theorem dedupGo_cons_seen (l : List String) (seen : List String) (a : String) :
    dedupGo (a :: seen) l = dedupGo seen (l.filter (fun b => !(b == a))) := by
  induction l generalizing seen with
  | nil => rfl
  | cons c rest ih =>
    by_cases hca : c = a
    · subst hca
      have h1 : (c :: seen).contains c = true := by simp
      have hf : List.filter (fun b => !(b == c)) (c :: rest)
          = List.filter (fun b => !(b == c)) rest := by simp
      rw [hf]
      show (if (c :: seen).contains c = true then dedupGo (c :: seen) rest
            else c :: dedupGo (c :: c :: seen) rest)
          = dedupGo seen (List.filter (fun b => !(b == c)) rest)
      rw [if_pos h1]
      exact ih seen
    · have hba : (c == a) = false := beq_eq_false_iff_ne.mpr hca
      have hf : List.filter (fun b => !(b == a)) (c :: rest)
          = c :: List.filter (fun b => !(b == a)) rest := by simp [hba]
      rw [hf]
      have hcc : (a :: seen).contains c = seen.contains c := by
        show (c == a || seen.contains c) = seen.contains c
        rw [hba]
        simp
      show (if (a :: seen).contains c = true then dedupGo (a :: seen) rest
            else c :: dedupGo (c :: a :: seen) rest)
          = (if seen.contains c = true then dedupGo seen (List.filter (fun b => !(b == a)) rest)
             else c :: dedupGo (c :: seen) (List.filter (fun b => !(b == a)) rest))
      rw [hcc]
      by_cases hc : seen.contains c = true
      · rw [if_pos hc, if_pos hc]
        exact ih seen
      · rw [if_neg hc, if_neg hc]
        congr 1
        rw [dedupGo_congr rest (c :: a :: seen) (a :: c :: seen) (fun x => by
          show (x == c || (x == a || seen.contains x)) = (x == a || (x == c || seen.contains x))
          cases x == c <;> cases x == a <;> simp)]
        exact ih (c :: seen)

/-- No faults: the faulty cycle coincides with the plain one (sanity check of
the fault model). -/
theorem processAndStoreFaulty_nofault (pubLoc : String → String) (batch : List RawDoc)
    (s : Store) :
    processAndStoreFaulty pubLoc batch s ⟨false, false, false, false⟩
      = processAndStoreData pubLoc batch s := by
  rfl

/-! ## Claim C3 -/

/-- C3: document identity is disjunctive — during ingestion a fetched
document is classified as new iff no document already in the raw store
matches it on `infoid` or on `infourl`; a match on either field alone makes
it a duplicate.  (`newItems` is the classification step `process_and_store_data`
applies to the fetched batch.) -/
theorem c3_identity_disjunctive (d : RawDoc) (batch existing : List RawDoc) :
    d ∈ newItems batch existing ↔
      d ∈ batch ∧ ∀ item ∈ existing,
        ¬(item.infoid.get = d.infoid.get ∨ item.infourl.get = d.infourl.get) := by
  simp only [newItems, List.mem_filter, Bool.not_eq_true', isExistingRecord]
  constructor
  · rintro ⟨h1, h2⟩
    refine ⟨h1, fun item hm hor => ?_⟩
    have : (item.infoid.get == d.infoid.get || item.infourl.get == d.infourl.get) = true := by
      rcases hor with h | h
      · simp [h]
      · simp [h]
    have hany : existing.any (fun item =>
        item.infoid.get == d.infoid.get || item.infourl.get == d.infourl.get) = true :=
      List.any_eq_true.mpr ⟨item, hm, this⟩
    rw [hany] at h2
    exact Bool.true_eq_false_eq_False h2
  · rintro ⟨h1, h2⟩
    refine ⟨h1, ?_⟩
    rw [Bool.eq_false_iff]
    intro hany
    rcases List.any_eq_true.mp hany with ⟨item, hm, hmatch⟩
    rcases Bool.or_eq_true_iff.mp hmatch with h | h
    · exact h2 item hm (Or.inl (by simpa using h))
    · exact h2 item hm (Or.inr (by simpa using h))

/-! ## Claim C4 -/

/-- C4: idempotence of dedup — running an ingestion cycle on a batch and then
a second cycle on the same batch adds nothing the second time: the second
cycle returns 0 and leaves both stores unchanged. -/
theorem c4_dedup_idempotent (pubLoc : String → String) (batch : List RawDoc) (s : Store) :
    processAndStoreData pubLoc batch (processAndStoreData pubLoc batch s).1
      = ((processAndStoreData pubLoc batch s).1, 0) := by
  by_cases hb : batch.isEmpty = true
  · simp [processAndStoreData, hb]
  · by_cases hn : (newItems batch s.raw).isEmpty = true
    · simp [processAndStoreData, hb, hn]
    · have hfst : (processAndStoreData pubLoc batch s).1
          = ⟨s.raw ++ newItems batch s.raw, appendParsed pubLoc s.parsed (newItems batch s.raw)⟩ := by
        simp [processAndStoreData, hb, hn]
      rw [hfst]
      simp [processAndStoreData, hb, newItems_after_commit batch s.raw]

/-! ## Claim C5 -/

/-- C5 as stated: after a cycle, the notification stage consumes exactly the
parsed-store suffix added by the cycle — demanded of the notification stage
of both cited variants (`houxuan.py` reading `latest_new_count`, `main.py`
reading the last `min(len, page_size)` records). -/
def c5Stated : Prop :=
  (∀ (pubLoc : String → String) (batch : List RawDoc) (s : Store),
     sendNotificationsTargets (processAndStoreData pubLoc batch s).2
         (processAndStoreData pubLoc batch s).1.parsed
       = (newItems batch s.raw).map (parsedRecordOf pubLoc)) ∧
  (∀ (pubLoc : String → String) (batch : List RawDoc) (s : Store),
     sendNotificationsTargetsMain (processAndStoreData pubLoc batch s).1.parsed
       = (newItems batch s.raw).map (parsedRecordOf pubLoc))

/-- A pre-existing raw document for the C5 counterexample. -/
def c5DocA : RawDoc :=
  { infoid := .str "idA", infourl := .str "/a", title := .str "tA", infodate := .str "dA",
    customtitle := .absent, doc := ⟨[], ""⟩ }

/-- The newly fetched document of the C5 counterexample. -/
def c5DocB : RawDoc :=
  { infoid := .str "idB", infourl := .str "/b", title := .str "tB", infodate := .str "dB",
    customtitle := .absent, doc := ⟨[], ""⟩ }

/-- The parsed record already in the store in the C5 counterexample. -/
def c5PrevRec : ParsedRec :=
  { infoid := some "idA", infourl := some "/a", parsed := ⟨"", "", [], ""⟩,
    title := some "tA", infodate := some "dA" }

/-- C5 counterexample: with one old parsed record and a cycle adding one new
document, the `main.py` notification stage consumes the last
`min(2, 6) = 2` records — the old record is re-consumed, so the consumed
list is not the newly added suffix. -/
theorem c5_counterexample : ¬ c5Stated := by
  rintro ⟨-, h2⟩
  have := h2 (fun _ => "") [c5DocB] ⟨[c5DocA], [c5PrevRec]⟩
  exact absurd this (by decide)

/-- C5 corrected: in `houxuan.py` the cycle's return value (the value of
`latest_new_count` on a fresh monitor) equals the number of newly added
documents, and `send_notifications` consumes exactly that suffix of the
parsed store; the `main.py` variant records no count and instead consumes the
last `min(len(parsedStore), 6)` entries, which has the wrong length whenever
the store already held records and fewer than 6 documents are new. -/
theorem c5_amended_newcount :
    (∀ (pubLoc : String → String) (batch : List RawDoc) (s : Store),
       (processAndStoreData pubLoc batch s).2 = (newItems batch s.raw).length ∧
       sendNotificationsTargets (processAndStoreData pubLoc batch s).2
           (processAndStoreData pubLoc batch s).1.parsed
         = (newItems batch s.raw).map (parsedRecordOf pubLoc)) ∧
    (∀ prev added : List ParsedRec, prev ≠ [] → added.length < mainPageSize →
       (sendNotificationsTargetsMain (prev ++ added)).length ≠ added.length) := by
  constructor
  · intro pubLoc batch s
    by_cases hb : batch.isEmpty = true
    · have hbe : batch = [] := List.isEmpty_iff.mp hb
      subst hbe
      simp [processAndStoreData, sendNotificationsTargets, newItems]
    · by_cases hn : (newItems batch s.raw).isEmpty = true
      · have hne : newItems batch s.raw = [] := List.isEmpty_iff.mp hn
        simp [processAndStoreData, hb, hn, hne, sendNotificationsTargets]
      · have hne : newItems batch s.raw ≠ [] := fun he => by simp [he] at hn
        have hlen : (newItems batch s.raw).length ≠ 0 := by
          simpa [List.length_eq_zero] using hne
        constructor
        · simp [processAndStoreData, hb, hn]
        · simp only [processAndStoreData, Bool.not_eq_true, if_neg hb, if_neg hn,
            sendNotificationsTargets, if_neg hlen, appendParsed_eq]
          simp
  · intro prev added hprev hlen
    have hne : (prev ++ added).isEmpty = false := by
      cases prev with
      | nil => exact absurd rfl hprev
      | cons a l => rfl
    have hp : prev.length ≠ 0 := by
      simpa [List.length_eq_zero] using hprev
    simp only [sendNotificationsTargetsMain, hne, Bool.false_eq_true, if_false,
      List.length_drop, List.length_append, mainPageSize] at *
    omega

/-! ## Claim C6 -/

/-- C6: bulk re-extraction replaces rather than appends — `reparse_all_data`
produces exactly one parsed record per raw document, in raw-store order,
discarding whatever the parsed store held before. -/
theorem c6_reparse_replaces (pubLoc : String → String) (s : Store) :
    (reparseAllData pubLoc s).parsed = s.raw.map (parsedRecordOf pubLoc) ∧
    (reparseAllData pubLoc s).parsed.length = s.raw.length ∧
    (reparseAllData pubLoc s).raw = s.raw ∧
    (∀ i, (reparseAllData pubLoc s).parsed.get? i
        = (s.raw.get? i).map (parsedRecordOf pubLoc)) ∧
    ∀ priorParsed : List ParsedRec,
      (reparseAllData pubLoc { raw := s.raw, parsed := priorParsed }).parsed
        = (reparseAllData pubLoc s).parsed := by
  have h : (reparseAllData pubLoc s).parsed = s.raw.map (parsedRecordOf pubLoc) := by
    simp [reparseAllData, appendParsed_eq]
  refine ⟨h, by simp [h], rfl, fun i => by simp [h], fun priorParsed => by
    simp [reparseAllData]⟩

/-! ## Claim C9 -/

/-- C9 as stated: a persistence fault during the cycle is surfaced and the
cycle aborts with no partial commit — i.e. the cycle leaves the stores
unchanged and reports nothing new. -/
def c9Stated : Prop :=
  ∀ (pubLoc : String → String) (batch : List RawDoc) (s : Store) (fl : Faults),
    faultOccurs fl = true → processAndStoreFaulty pubLoc batch s fl = (s, 0)

/-- The document ingested in the C9 counterexample and witness. -/
def c9Doc : RawDoc :=
  { infoid := .str "id9", infourl := .str "/u9", title := .str "t9", infodate := .str "d9",
    customtitle := .absent, doc := ⟨[], ""⟩ }

/-- C9 counterexample: when only the parsed-store write fails, the cycle
still commits the raw store and reports one new record — the fault is
swallowed (`_save_json_file` only prints) and the stores are left partially
committed. -/
theorem c9_counterexample : ¬ c9Stated := by
  intro h
  have := h (fun _ => "") [c9Doc] ⟨[], []⟩ ⟨false, false, false, true⟩ (by decide)
  exact absurd this (by decide)

/-- C9 corrected: persistence faults are caught and logged inside
`_load_json_file`/`_save_json_file` and never surfaced; a failed read is
treated as an empty store and a failed write leaves the old file, so the
cycle always continues — in particular, when the raw write succeeds and the
parsed write fails, the cycle commits the raw store only and still reports
the new count, leaving the two stores inconsistent. -/
theorem c9_amended_swallowed (pubLoc : String → String) (batch : List RawDoc) (s : Store)
    (h : newItems batch s.raw ≠ []) :
    processAndStoreFaulty pubLoc batch s ⟨false, false, false, true⟩
      = ({ raw := s.raw ++ newItems batch s.raw, parsed := s.parsed },
         (newItems batch s.raw).length) := by
  have hb : batch ≠ [] := by
    intro hbe
    subst hbe
    exact h rfl
  have hb' : batch.isEmpty = false := by
    cases batch with
    | nil => exact absurd rfl hb
    | cons a l => rfl
  have hn' : (newItems batch s.raw).isEmpty = false := by
    cases hne : newItems batch s.raw with
    | nil => exact absurd hne h
    | cons a l => rfl
  simp [processAndStoreFaulty, hb', hn']

/-- C9 witness: the corrected behaviour at a concrete one-document cycle. -/
theorem c9_amended_swallowed_witness :
    processAndStoreFaulty (fun _ => "") [c9Doc] ⟨[], []⟩ ⟨false, false, false, true⟩
      = ({ raw := [c9Doc], parsed := [] }, 1) := by
  have h := c9_amended_swallowed (fun _ => "") [c9Doc] ⟨[], []⟩ (by decide)
  exact h.trans (by decide)

/-! ## Claim C10 -/

/-- C10: store loss on an unreadable raw-store file — when loading the raw
store raises (e.g. corrupt JSON), the load is swallowed into `[]`, every
fetched document is classified as new, and the raw file is rewritten to
contain exactly the current batch, discarding everything previously stored. -/
theorem c10_store_loss (pubLoc : String → String) (batch : List RawDoc) (s : Store)
    (h : batch ≠ []) :
    newItems batch ([] : List RawDoc) = batch ∧
    processAndStoreFaulty pubLoc batch s ⟨true, false, false, false⟩
      = ({ raw := batch, parsed := appendParsed pubLoc s.parsed batch }, batch.length) := by
  have hni : newItems batch ([] : List RawDoc) = batch := by
    apply List.filter_eq_self.mpr
    intro a _
    rfl
  have hb' : batch.isEmpty = false := by
    cases batch with
    | nil => exact absurd rfl h
    | cons a l => rfl
  refine ⟨hni, ?_⟩
  have hn' : (newItems batch ([] : List RawDoc)).isEmpty = false := by
    rw [hni]; exact hb'
  simp [processAndStoreFaulty, hb', hni, hn']

/-- The previously stored document discarded in the C10 witness. -/
def c10OldDoc : RawDoc :=
  { infoid := .str "old", infourl := .str "/old", title := .str "to", infodate := .str "do",
    customtitle := .absent, doc := ⟨[], ""⟩ }

/-- The previously stored parsed record of the C10 witness. -/
def c10OldRec : ParsedRec :=
  { infoid := some "old", infourl := some "/old", parsed := ⟨"p", "", [], ""⟩,
    title := some "to", infodate := some "do" }

/-- The freshly fetched document of the C10 witness. -/
def c10NewDoc : RawDoc :=
  { infoid := .str "new", infourl := .str "/new", title := .str "tn", infodate := .str "dn",
    customtitle := .absent, doc := ⟨[], ""⟩ }

/-- C10 witness: a concrete cycle with a corrupt raw file — the old raw
document vanishes from the raw store, which afterwards holds only the
batch. -/
theorem c10_store_loss_witness :
    newItems [c10NewDoc] ([] : List RawDoc) = [c10NewDoc] ∧
    processAndStoreFaulty (fun _ => "") [c10NewDoc] ⟨[c10OldDoc], [c10OldRec]⟩
        ⟨true, false, false, false⟩
      = ({ raw := [c10NewDoc],
           parsed := [c10OldRec, parsedRecordOf (fun _ => "") c10NewDoc] }, 1) := by
  have h := c10_store_loss (fun _ => "") [c10NewDoc] ⟨[c10OldDoc], [c10OldRec]⟩ (by decide)
  exact ⟨h.1, h.2.trans (by decide)⟩

/-! ## Claim C1 -/

/-- C1 as stated: whenever the header-based table locator yields at least one
candidate, the extraction result is exactly that output — nothing added, no
override. -/
def c1Stated : Prop :=
  ∀ (pubLoc : String → String) (data : RawDoc) (bp : List Candidate),
    tableLocate data.doc.tables = .ok bp → bp ≠ [] →
    (parseHtmlContent pubLoc data).bidders_and_prices = bp

/-- The C1 document's first table: a header row, one candidate row, one price
row; the table locator extracts exactly one candidate from it. -/
def c1TableA : Table :=
  ⟨[⟨["中标候选人名称"]⟩, ⟨["甲方建设集团有限公司"]⟩, ⟨["投标报价", "100元"]⟩]⟩

/-- The C1 document's second table: a further company name that only the
fewer-than-3 top-up sweep picks up. -/
def c1TableB : Table := ⟨[⟨["乙方工程集团股份公司"]⟩]⟩

/-- The C1 counterexample document. -/
def c1Data : RawDoc :=
  { infoid := .str "1", infourl := .str "/x", title := .str "t", infodate := .str "d",
    customtitle := .str "某项目中标候选人公示", doc := ⟨[c1TableA, c1TableB], ""⟩ }

/-- C1 counterexample: on `c1Data` the table locator yields one candidate,
yet the final list gains a second entry appended by the fewer-than-3 top-up
sweep of lines 339-359 — the table output is extended, not final. -/
theorem c1_counterexample : ¬ c1Stated := by
  intro h
  have := h (fun _ => "") c1Data [⟨"甲方建设集团有限公司", "投标报价"⟩] rfl (by decide)
  exact absurd this (by decide)

/-- C1 corrected: when the table locator yields at least one candidate
(without an internal fault, and with the title/url field accesses not
faulting), the prose locator is skipped — the candidate list depends on the
tables alone — and equals the table output followed by the entries the
fewer-than-3 top-up sweep appends; whenever the table locator already yields
3 or more candidates the result is exactly its output. -/
theorem c1_table_priority_amended (pubLoc : String → String) (data : RawDoc)
    (bp : List Candidate) (t u : String)
    (ht : data.customtitle.getD "" = some t) (hu : data.infourl.getD "" = some u)
    (hm : tableLocate data.doc.tables = .ok bp) (hne : bp ≠ []) :
    (parseHtmlContent pubLoc data).bidders_and_prices
      = bp ++ topUpExtra data.doc.tables bp ∧
    (3 ≤ bp.length → (parseHtmlContent pubLoc data).bidders_and_prices = bp) := by
  have hbe : bp.isEmpty = false := by
    cases bp with
    | nil => exact absurd rfl hne
    | cons a l => rfl
  have hmain : (parseHtmlContent pubLoc data).bidders_and_prices
      = topUp data.doc.tables bp := by
    simp [parseHtmlContent, parseBody, ht, hm, hu, hbe]
  constructor
  · rw [hmain, topUp_eq_append]
  · intro h3
    rw [hmain, topUp_eq_append]
    have hz : topUpExtra data.doc.tables bp = [] := by
      unfold topUpExtra
      rw [if_neg (by omega)]
    simp [hz]

/-- C1 witness: the corrected statement applied to the counterexample
document. -/
theorem c1_table_priority_amended_witness :
    (parseHtmlContent (fun _ => "") c1Data).bidders_and_prices
      = [⟨"甲方建设集团有限公司", "投标报价"⟩]
          ++ topUpExtra c1Data.doc.tables [⟨"甲方建设集团有限公司", "投标报价"⟩] :=
  (c1_table_priority_amended (fun _ => "") c1Data [⟨"甲方建设集团有限公司", "投标报价"⟩]
    "某项目中标候选人公示" "/x" rfl rfl rfl (by decide)).1

/-! ## Claim C2 -/

/-- C2 as stated (the refutable core): an internal fault during extraction is
treated as the locator having produced nothing, so a faulting document comes
back with an empty candidate list. -/
def c2Stated : Prop :=
  ∀ (pubLoc : String → String) (data : RawDoc),
    (∃ e, parseBody pubLoc data = .error e) →
    (parseHtmlContent pubLoc data).bidders_and_prices = []

/-- The C2 counterexample document: `customtitle` is JSON `null`, so
`data.get("customtitle", "").replace(...)` raises during title stripping. -/
def c2Data : RawDoc :=
  { infoid := .str "3", infourl := .str "/z", title := .str "原始标题", infodate := .str "d",
    customtitle := .null, doc := ⟨[], ""⟩ }

/-- C2 counterexample: the title-stripping fault on `c2Data` is caught by the
whole-extraction handler, which returns the sentinel candidate
`{解析失败, 请查看详情}` — a non-empty candidate list, and a project name of
`解析失败` rather than the raw title. -/
theorem c2_counterexample : ¬ c2Stated := by
  intro h
  have := h (fun _ => "") c2Data ⟨(.attrError, ""), rfl⟩
  exact absurd this (by decide)

/-- The all-fields-absent document with empty markup: extraction succeeds on
it with zero candidates. -/
def emptyRawDoc : RawDoc :=
  { infoid := .absent, infourl := .absent, title := .absent, infodate := .absent,
    customtitle := .absent, doc := ⟨[], ""⟩ }

/-- C2 corrected: extraction is total — every input yields a well-formed
record.  A fault anywhere in the body is caught at the whole-extraction
boundary (not per locator) and produces the fixed fallback record: project
name `解析失败` (or the partial title computed before the fault), empty
publicity period, the single sentinel candidate `{解析失败, 请查看详情}`, and
an empty url.  A fault-free document with no extractable data yields a valid
record with zero candidates. -/
theorem c2_never_raises_amended :
    (∀ (pubLoc : String → String) (data : RawDoc),
       (∃ r, parseBody pubLoc data = .ok r ∧ parseHtmlContent pubLoc data = r) ∨
       (∃ e pn, parseBody pubLoc data = .error (e, pn) ∧
          parseHtmlContent pubLoc data = fallbackRecord pn)) ∧
    (∃ r, parseBody (fun _ => "") emptyRawDoc = .ok r ∧ r.bidders_and_prices = []) := by
  constructor
  · intro pubLoc data
    cases hb : parseBody pubLoc data with
    | ok r => exact Or.inl ⟨r, rfl, by simp [parseHtmlContent, hb]⟩
    | error e =>
      rcases e with ⟨e, pn⟩
      exact Or.inr ⟨e, pn, rfl, by simp [parseHtmlContent, hb]⟩
  · exact ⟨⟨"未知项目", "", [], ""⟩, by rfl, by decide⟩

/-! ## Claim C7 -/

/-- C7 as stated: the final extracted candidate list never contains two
entries with the same bidder name. -/
def c7Stated : Prop :=
  ∀ (pubLoc : String → String) (data : RawDoc),
    ((parseHtmlContent pubLoc data).bidders_and_prices.map (fun c => c.bidder)).Nodup

/-- The C7 counterexample document: the candidate row repeats the same
company in two cells, and no step deduplicates the final list. -/
def c7Data : RawDoc :=
  { infoid := .str "2", infourl := .str "/y", title := .str "t", infodate := .str "d",
    customtitle := .str "另项目中标候选人公示",
    doc := ⟨[⟨[⟨["候选人名称"]⟩, ⟨["某某建设集团公司", "某某建设集团公司"]⟩,
              ⟨["报价", "1元", "2元"]⟩]⟩], ""⟩ }

/-- C7 counterexample: `c7Data` extracts `某某建设集团公司` twice (with two
different prices) — the final candidate list is not deduplicated by bidder
name. -/
theorem c7_counterexample : ¬ c7Stated := by
  intro h
  exact absurd (h (fun _ => "") c7Data) (by decide)

/-- C7 corrected: the final candidate list is not globally deduplicated and
may repeat a bidder name.  Deduplication exists only inside the individual
sweep steps, where it does work as described: the accumulate-if-new loops of
the table sweeps never produce duplicates, and the seen-set dedup of the
generic company-name fallback keeps exactly the first occurrence of each
name, preserving first-seen order (it is a duplicate-free sublist with the
same members, satisfying the keep-first recurrence). -/
theorem c7_dedup_amended :
    (∀ (ok : String → Bool) (cells : List String), (collectCompanies ok cells).Nodup) ∧
    (∀ l : List String,
       (dedupKeepFirst l).Nodup ∧ List.Sublist (dedupKeepFirst l) l ∧
       (∀ a, a ∈ dedupKeepFirst l ↔ a ∈ l)) ∧
    (∀ (a : String) (l : List String),
       dedupKeepFirst (a :: l) = a :: dedupKeepFirst (l.filter (fun b => !(b == a)))) := by
  refine ⟨fun ok cells => collectFold_nodup ok cells [] List.nodup_nil,
    fun l => ⟨dedupGo_nodup l [], dedupGo_sublist l [], fun a => by
      rw [dedupKeepFirst, dedupGo_mem]
      simp⟩,
    fun a l => ?_⟩
  show dedupGo [] (a :: l) = _
  have hc : ([] : List String).contains a = false := rfl
  simp only [dedupGo, hc, Bool.false_eq_true, if_false]
  rw [dedupGo_cons_seen]
  rfl

/-! ## Claim C8 -/

/-- C8: the pairing policy — located bidders and prices are zipped by
position: the result has exactly one entry per bidder, the `i`-th entry pairs
the `i`-th bidder with the `i`-th price when it exists and with the sentinel
`未提供` otherwise, and prices beyond the bidder count produce no entry.
`pairBP` is the pairing loop shared by the table locator (lines 228-233) and
the prose locator (lines 332-337). -/
theorem c8_pairing_policy (cs ps : List String) :
    (pairBP cs ps).length = cs.length ∧
    ∀ i b, cs.get? i = some b →
      (pairBP cs ps).get? i = some ⟨b, (ps.get? i).getD "未提供"⟩ := by
  induction cs generalizing ps with
  | nil =>
    refine ⟨by cases ps <;> rfl, fun i b h => by simp at h⟩
  | cons c cs ih =>
    cases ps with
    | nil =>
      refine ⟨by simpa [pairBP] using (ih []).1, fun i b h => ?_⟩
      cases i with
      | zero =>
        simp only [List.get?_cons_zero, Option.some.injEq] at h
        subst h
        rfl
      | succ n =>
        simp only [List.get?_cons_succ] at h ⊢
        simpa [pairBP] using (ih []).2 n b h
    | cons p ps' =>
      refine ⟨by simpa [pairBP] using (ih ps').1, fun i b h => ?_⟩
      cases i with
      | zero =>
        simp only [List.get?_cons_zero, Option.some.injEq] at h
        subst h
        rfl
      | succ n =>
        simp only [List.get?_cons_succ] at h ⊢
        simpa [pairBP] using (ih ps').2 n b h

/-- C8 witness: two bidders, one price — the second bidder receives the
sentinel and the result length equals the bidder count. -/
theorem c8_pairing_policy_witness :
    (pairBP ["甲公司", "乙公司"] ["10元"]).length = 2 ∧
    (pairBP ["甲公司", "乙公司"] ["10元"]).get? 1 = some ⟨"乙公司", "未提供"⟩ := by
  refine ⟨(c8_pairing_policy ["甲公司", "乙公司"] ["10元"]).1, ?_⟩
  exact (c8_pairing_policy ["甲公司", "乙公司"] ["10元"]).2 1 "乙公司" rfl

/-! ## Witnesses for the identity and new-count claims -/

/-- A stored raw document for the C3 witness. -/
def c3DocA : RawDoc :=
  { infoid := .str "idA3", infourl := .str "/a3", title := .str "tA", infodate := .str "dA",
    customtitle := .absent, doc := ⟨[], ""⟩ }

/-- A fetched document with fresh identity for the C3 witness. -/
def c3DocB : RawDoc :=
  { infoid := .str "idB3", infourl := .str "/b3", title := .str "tB", infodate := .str "dB",
    customtitle := .absent, doc := ⟨[], ""⟩ }

/-- A fetched document sharing `infoid` with `c3DocA` but with a different
`infourl`, for the C3 witness. -/
def c3DocC : RawDoc :=
  { infoid := .str "idA3", infourl := .str "/c3", title := .str "tC", infodate := .str "dC",
    customtitle := .absent, doc := ⟨[], ""⟩ }

/-- C3 witness: a document with fresh id and url is classified new against a
one-document store, while a document sharing only the id is classified as a
duplicate. -/
theorem c3_identity_disjunctive_witness :
    c3DocB ∈ newItems [c3DocB] [c3DocA] ∧ c3DocC ∉ newItems [c3DocC] [c3DocA] := by
  constructor
  · exact (c3_identity_disjunctive c3DocB [c3DocB] [c3DocA]).mpr ⟨by decide, by decide⟩
  · intro hmem
    have h := ((c3_identity_disjunctive c3DocC [c3DocC] [c3DocA]).mp hmem).2
    exact h c3DocA (by decide) (Or.inl rfl)

/-- C5 witness: with one pre-existing parsed record and one newly added
record, the `main.py` notification stage consumes a list whose length is not
the number of newly added records. -/
theorem c5_amended_newcount_witness :
    (sendNotificationsTargetsMain ([c5PrevRec] ++ [c5PrevRec])).length ≠ 1 :=
  c5_amended_newcount.2 [c5PrevRec] [c5PrevRec] (by decide) (by decide)
